import Mathlib

/-!
# Bridgea metadata-extraction and retrieval core: a shallow embedding

This file embeds, in Lean 4, the algorithmic core of the Bridgea bookmark
manager: the fetch-strategy selector and metadata extractors
(`src/provider/AI/fetchMetadata.ts`), the tag-ranking / tag-generation step
(`src/provider/AI/processTagsWithAI.ts`), the per-URL concurrency guard of the
metadata API route (`src/pages/api/getMetadata.ts`), and the chat search
pipeline (`src/pages/api/chat.ts`).

Pure computations are translated as Lean functions.  Asynchronous I/O
boundaries (HTTP probe, browser navigation and evaluation, the generative
service) are made explicit parameters: the outcome of each external call is an
argument of the embedded function, so that every control path of the
JavaScript source corresponds to a concrete argument value here.  JavaScript
notions that the source leans on (truthiness of strings, `Array.prototype`
semantics, `new Map` / `new Set` construction order, stable `sort`) are
modelled by small helper functions named `js...`, each faithful to the
ECMAScript behaviour the source relies on.
-/

namespace Bridgea

/-- ASCII lowercase of one character — the behaviour of JavaScript
`toLowerCase` on the ASCII inputs this code base handles. -/
def charToLower (c : Char) : Char :=
  if 'A' ≤ c ∧ c ≤ 'Z' then Char.ofNat (c.toNat + 32) else c

/-- JavaScript `String.prototype.toLowerCase` (ASCII range). -/
def strToLower (s : String) : String := ⟨s.data.map charToLower⟩

/-- JavaScript whitespace characters relevant to `/\s+/` on the inputs
handled here. -/
def jsWs (c : Char) : Bool := (c == ' ') || (c == '\t') || (c == '\n') || (c == '\r')

/-- JavaScript `String.prototype.trim`. -/
def strTrim (s : String) : String :=
  ⟨((s.data.dropWhile jsWs).reverse.dropWhile jsWs).reverse⟩

/-- Splitting a character list on a single-character separator, keeping empty
segments — JavaScript `s.split(sep)` for a one-character string `sep`. -/
def splitCharAux (sep : Char) (acc : List Char) : List Char → List (List Char)
  | [] => [acc.reverse]
  | c :: cs =>
    if c == sep then acc.reverse :: splitCharAux sep [] cs
    else splitCharAux sep (c :: acc) cs

/-- JavaScript `s.split(sep)` for a one-character separator `sep`. -/
def strSplitChar (sep : Char) (s : String) : List String :=
  (splitCharAux sep [] s.data).map (fun l => ⟨l⟩)

/-- JavaScript `parts.join(sep)` for a one-character separator `sep`. -/
def joinWithChar (sep : Char) : List String → String
  | [] => ""
  | [s] => s
  | s :: rest => ⟨s.data ++ sep :: (joinWithChar sep rest).data⟩

/-- JavaScript `String.prototype.includes`: substring containment.
`hay.includes(pat)` is true iff `pat` occurs contiguously in `hay`
(always true for the empty pattern). -/
def strContains (hay pat : String) : Bool :=
  (List.range (hay.data.length + 1)).any (fun i => pat.data.isPrefixOf (hay.data.drop i))

/-- JavaScript truthiness of an optional string value: `undefined` and the
empty string are falsy, every other string is truthy. -/
def jsTruthy : Option String → Bool
  | none => false
  | some s => s ≠ ""

/-- JavaScript `a || b` for an optional string `a` with string default `b`:
yields `b` when `a` is `undefined` or `""`. -/
def jsOrStr (a : Option String) (b : String) : String :=
  match a with
  | none => b
  | some s => if s = "" then b else s

/-- JavaScript `a || b` on two optional string values (used for
`queryParams.tag || queryParams.tags`): a present-but-empty string is falsy
and falls through to `b`. -/
def jsOrOpt (a b : Option String) : Option String :=
  match a with
  | none => b
  | some s => if s = "" then b else some s

/-- JavaScript `[...new Set(l)]`: removes duplicates keeping the FIRST
occurrence of each element, in insertion order.  `seen` accumulates the
elements already emitted. -/
def jsSetDedupAux (seen : List String) : List String → List String
  | [] => []
  | x :: xs =>
    if x ∈ seen then jsSetDedupAux seen xs
    else x :: jsSetDedupAux (x :: seen) xs

/-- JavaScript `[...new Set(l)]` with an empty initial set. -/
def jsSetDedup (l : List String) : List String :=
  jsSetDedupAux [] l

/-- One insertion into a JavaScript `Map` built from an entry list: an
existing key keeps its position but its value is overwritten; a new key is
appended. -/
def jsMapInsert (m : List (String × α)) (k : String) (v : α) : List (String × α) :=
  if m.any (fun p => p.1 == k) then m.map (fun p => if p.1 == k then (k, v) else p)
  else m ++ [(k, v)]

/-- JavaScript `new Map(pairs)`: keys in first-insertion order, each key
holding the LAST value supplied for it. -/
def jsMapOfList (ps : List (String × α)) : List (String × α) :=
  ps.foldl (fun m p => jsMapInsert m p.1 p.2) []

/-- JavaScript `Array.from(new Map(pairs).values())`. -/
def jsMapValuesOfList (ps : List (String × α)) : List α :=
  (jsMapOfList ps).map (fun p => p.2)

/-- Insert into an already-sorted list under the strict "comes before"
test `lt`, keeping `x` after every element `y` with `lt y x` — the placement
a stable comparator sort produces. -/
def jsInsertBy (lt : α → α → Bool) (x : α) : List α → List α
  | [] => [x]
  | y :: ys => if lt y x then y :: jsInsertBy lt x ys else x :: y :: ys

/-- JavaScript stable `Array.prototype.sort` with a comparator whose strict
"a before b" relation is `lt`: elements the comparator ties keep their
original relative order. -/
def jsStableSort (lt : α → α → Bool) (l : List α) : List α :=
  l.foldr (jsInsertBy lt) []

/-- Collect maximal runs of non-whitespace characters. -/
def splitWsAux (acc : List Char) : List Char → List (List Char)
  | [] => if acc.isEmpty then [] else [acc.reverse]
  | c :: cs =>
    if jsWs c then
      if acc.isEmpty then splitWsAux [] cs else acc.reverse :: splitWsAux [] cs
    else splitWsAux (c :: acc) cs

/-- Split a string on runs of whitespace, dropping empty tokens —
JavaScript `s.split(/\s+/)` for strings without leading whitespace
(a string with leading whitespace additionally yields one empty leading
token in JavaScript; no claim below exercises such an input). -/
def splitWs (s : String) : List String :=
  (splitWsAux [] s.data).map (fun l => ⟨l⟩)

/-! ## `fetchMetadata.ts` — the `Metadata` record and the strategy selector -/

/-- The `Metadata` type of `src/provider/AI/fetchMetadata.ts`. -/
structure Metadata where
  title : String
  description : String
  imageUrl : String
  categories : List String
  tags : List String
deriving DecidableEq, Repr

/-- The two values of `determineFetchMethod`'s return type,
`"axios" | "puppeteer"`. -/
inductive FetchMethod where
  | axios
  | puppeteer
deriving DecidableEq, Repr

/-- The regular expression `/Behance|Pinterest|Instagram|Twitter|Medium/i`
applied to a title: case-insensitive containment of any of the five fixed
keywords. -/
def dynamicSiteTitle (title : String) : Bool :=
  ["behance", "pinterest", "instagram", "twitter", "medium"].any
    (fun k => strContains (strToLower title) k)

/-- `determineFetchMethod` from `src/provider/AI/fetchMetadata.ts`
(lines 246–271).  The bounded 5s `axios.get` probe and the cheerio title
extraction (`og:title` content, else trimmed `<title>` text, else `""`) are
external I/O; their combined outcome is the argument: `none` models a failed
probe (network error or timeout, caught by the `try`/`catch`), `some title`
a successful probe with extracted title `title`.  Every statement of the
source body sits inside the `try`, whose `catch` returns `"puppeteer"`, so
the function is total — it never raises to the caller. -/
def determineFetchMethod (probe : Option String) : FetchMethod :=
  match probe with
  | none => .puppeteer
  | some title =>
    if title = "" || dynamicSiteTitle title then .puppeteer else .axios

/-! ## `fetchMetadataWithPuppeteer` — browser lifecycle

The function launches a browser, opens a page, navigates
(`page.goto(url, { waitUntil: "networkidle2" })`), settles 1s, evaluates an
extraction script, and only THEN calls `browser.close()`; there is no
`try`/`finally` around the navigation and evaluation.  The embedding records,
for each combination of external outcomes, whether the call returns metadata
or propagates an error, and whether `browser.close()` has run by the time
control leaves the function. -/

/-- Result of one `fetchMetadataWithPuppeteer` call: `result = some m` when
the promise resolves with metadata `m`, `none` when the call rejects
(the error reaches the caller); `browserClosed` records whether
`browser.close()` executed before control left the function. -/
structure PuppeteerOutcome where
  result : Option Metadata
  browserClosed : Bool
deriving DecidableEq, Repr

/-- `fetchMetadataWithPuppeteer` from `src/provider/AI/fetchMetadata.ts`
(lines 160–233), as a function of the outcomes of its two fallible external
steps: `gotoFails` — `page.goto` rejects (navigation error / timeout);
`evalFails` — `page.evaluate` rejects; `extracted` — the metadata the
evaluation script produces when it succeeds.  Control flow is sequential
`await`s with no `try`/`finally`: a rejection at `goto` or `evaluate`
propagates immediately and the trailing `await browser.close()` is never
reached. -/
def fetchMetadataWithPuppeteer (gotoFails evalFails : Bool) (extracted : Metadata) :
    PuppeteerOutcome :=
  if gotoFails then { result := none, browserClosed := false }
  else if evalFails then { result := none, browserClosed := false }
  else { result := some extracted, browserClosed := true }

/-! ## `processTagsWithAI.ts` — tag ranking and tag generation -/

/-- The metadata argument of `processTagsWithAI`: title, description and the
raw tag list. -/
structure TagMeta where
  title : String
  description : String
  tags : List String
deriving DecidableEq, Repr

/-- The hardcoded `genericTags` set of `processTagsWithAI.ts` (line 25). -/
def genericTags : List String := ["design", "brand", "logo"]

/-- JavaScript `tag.split(" ").filter(Boolean).length`: the number of
nonempty space-separated words of a tag. -/
def tagWordCount (tag : String) : Nat :=
  ((strSplitChar ' ' tag).filter (fun w => w ≠ "")).length

/-- The scoring body of `processTagsWithAI` (lines 28–44): +3 when the
lowercased tag occurs in the lowercased title, +2 when it occurs in the
lowercased description, + word count, −1 when the tag is a single word from
the generic set. -/
def tagScore (titleLower descriptionLower tag : String) : Int :=
  let lowerTag := strToLower tag
  let s1 : Int := if strContains titleLower lowerTag then 3 else 0
  let s2 : Int := if strContains descriptionLower lowerTag then 2 else 0
  let wc := tagWordCount tag
  let pen : Int := if wc = 1 ∧ lowerTag ∈ genericTags then 1 else 0
  s1 + s2 + (wc : Int) - pen

/-- Comparator-before relation of `scoredTags.sort((a, b) => b.score - a.score)`:
`a` sorts strictly before `b` iff its score is strictly larger. -/
def scoreBefore (a b : String × Int) : Bool := a.2 > b.2

/-- The ranking branch of `processTagsWithAI` (lines 19–54): score every
tag, stable-sort descending by score, take the first five, return the tags.
No deduplication is performed. -/
def rankTags (meta : TagMeta) : List String :=
  let titleLower := strToLower meta.title
  let descriptionLower := strToLower meta.description
  let scoredTags := meta.tags.map (fun tag => (tag, tagScore titleLower descriptionLower tag))
  ((jsStableSort scoreBefore scoredTags).take 5).map (fun p => p.1)

/-- `result.replace(/```json|```/g, "")` of `generateTagsWithGemini`
(line 100): scan left to right, at each position removing a leading
"```json", else a leading "```", else keeping the character — the
leftmost-first alternation semantics of the JavaScript regex. -/
def stripFencesAux : Nat → List Char → List Char
  | 0, l => l
  | _ + 1, [] => []
  | fuel + 1, c :: cs =>
    if ("```json".data).isPrefixOf (c :: cs) then stripFencesAux fuel ((c :: cs).drop 7)
    else if ("```".data).isPrefixOf (c :: cs) then stripFencesAux fuel ((c :: cs).drop 3)
    else c :: stripFencesAux fuel cs

/-- String wrapper for `stripFencesAux`.  The fuel bounds the number of
scan steps; every step consumes at least one character, so the input length
is enough fuel, and the `0` fuel case is never reached on a nonempty list. -/
def stripFences (s : String) : String := ⟨stripFencesAux s.data.length s.data⟩

/-- The response parsing of `generateTagsWithGemini` (lines 97–109): strip
code-fence markers, trim, split on commas, trim each piece, drop empties.
Applied to the raw text of a successful generative-service response; the
service call itself is external, so the raw response text is the argument. -/
def parseGeminiTags (responseText : String) : List String :=
  ((strSplitChar ',' (strTrim (stripFences responseText))).map strTrim).filter
    (fun t => t ≠ "")

/-- `generateTagsWithGemini` (lines 74–115) as a function of the service
outcome: `none` models a rejected service call (the `catch` returns `[]`),
`some r` a response with raw text `r`. -/
def generateTagsWithGemini (response : Option String) : List String :=
  match response with
  | none => []
  | some r => parseGeminiTags r

/-- `processTagsWithAI` (lines 17–63): rank the existing tags when the tag
list is nonempty, otherwise parse the generative-service response
(`response` is the outcome of the service call made in that branch). -/
def processTagsWithAI (meta : TagMeta) (response : Option String) : List String :=
  if meta.tags.length > 0 then rankTags meta
  else generateTagsWithGemini response

/-! ## `fetchMetadataWithAxios` — JSON-LD and meta-keywords tag extraction

`fetchMetadataWithAxios` (lines 69–148 of `fetchMetadata.ts`) fetches HTML
and reads title/description/image from meta tags (external I/O and cheerio
selectors; passed in as arguments).  Its algorithmic part is the tag
accumulation over JSON-LD script blocks and the meta keywords tag, embedded
here.  Each script block is one `JSON.parse` outcome: `none` models a
malformed block (the per-block `catch` logs and skips it), `some b` a parsed
object with its `keywords` and `about` fields. -/

/-- The `about` field of a JSON-LD block, in the two shapes the source
handles: a string, or an array of entities each with an optional `name`
(`none` models an entity whose `name` is absent or falsy). -/
inductive LdAbout where
  | strVal (s : String)
  | arrVal (items : List (Option String))
deriving DecidableEq, Repr

/-- A parsed JSON-LD block, restricted to the two fields the source reads. -/
structure LdBlock where
  keywords : Option String
  about : Option LdAbout
deriving DecidableEq, Repr

/-- JavaScript truthiness of the `about` field: `undefined` and `""` are
falsy; any array (even empty) is truthy. -/
def aboutTruthy : Option LdAbout → Bool
  | none => false
  | some (.strVal s) => s ≠ ""
  | some (.arrVal _) => true

/-- The per-block body of the `$("script[type='application/ld+json']").each`
loop (lines 99–124): a malformed block is skipped; a truthy `keywords` field
is comma-split, trimmed and merged with set semantics; OTHERWISE (`else if`)
a truthy `about` field contributes its string or its entities' truthy
names, pushed without deduplication. -/
def processLdBlock (tags : List String) (block : Option LdBlock) : List String :=
  match block with
  | none => tags
  | some b =>
    if jsTruthy b.keywords then
      jsSetDedup (tags ++ (strSplitChar ',' (b.keywords.getD "")).map strTrim)
    else if aboutTruthy b.about then
      match b.about with
      | some (.strVal s) => tags ++ [s]
      | some (.arrVal items) =>
        tags ++ items.filterMap (fun n =>
          match n with
          | some s => if s = "" then none else some s
          | none => none)
      | none => tags
    else tags

/-- The complete tag computation of `fetchMetadataWithAxios`: fold the
JSON-LD blocks, then merge a truthy meta `keywords` tag (comma-split,
trimmed) with set semantics, and finally `[...new Set(tags)]` (line 143). -/
def extractTagsAxios (blocks : List (Option LdBlock)) (metaKeywords : Option String) :
    List String :=
  let tags1 := blocks.foldl processLdBlock []
  let tags2 :=
    if jsTruthy metaKeywords then
      jsSetDedup (tags1 ++ (strSplitChar ',' (metaKeywords.getD "")).map strTrim)
    else tags1
  jsSetDedup tags2

/-- `fetchMetadataWithAxios` assembled result (lines 139–145): title,
description and image come from meta-tag selectors (arguments here), tags
from `extractTagsAxios`, categories from the never-extended empty list. -/
def fetchMetadataWithAxios (title description imageUrl : String)
    (blocks : List (Option LdBlock)) (metaKeywords : Option String) : Metadata :=
  { title := title
    description := description
    imageUrl := imageUrl
    tags := extractTagsAxios blocks metaKeywords
    categories := jsSetDedup [] }

/-! ## `getMetadata.ts` — per-URL concurrency guard -/

/-- The check-then-add step of the handler (lines 45–50): reject when the
URL is already in the in-flight set (`processingRequests.has(url)`),
otherwise add it.  Returned pair: (acquired?, new set state).  The JS `Set`
holds each URL at most once, so a `List String` without intended duplicates
models it; membership and removal below match `Set.has`/`Set.delete`. -/
def tryAcquire (s : List String) (url : String) : Bool × List String :=
  if s.contains url then (false, s) else (true, url :: s)

/-- `processingRequests.delete(url)` (line 84): remove the URL from the
in-flight set. -/
def releaseUrl (s : List String) (url : String) : List String :=
  s.filter (fun u => u ≠ url)

/-- Outcome of the extraction/enrichment pipeline inside the handler's
`try` block: it resolves with metadata or raises. -/
inductive PipelineOutcome where
  | success (m : Metadata)
  | failure
deriving DecidableEq, Repr

/-- The `getMetadata` API handler (lines 35–86) as a state transformer on
the in-flight URL set.  Input: the current set, the (optionally missing)
`url` query parameter, and the pipeline outcome; output: the HTTP status
sent and the set after the handler finishes.  The 400 and 429 responses
return before the `try` block, so they leave the set untouched; the
`finally` block deletes the URL on both the 200 and the 500 path. -/
def getMetadataHandler (s : List String) (url : Option String)
    (outcome : PipelineOutcome) : Nat × List String :=
  match url with
  | none => (400, s)
  | some u =>
    if s.contains u then (429, s)
    else
      let acquired := u :: s
      let final := releaseUrl acquired u
      match outcome with
      | .success _ => (200, final)
      | .failure => (500, final)

/-! ## `chat.ts` — search pipeline

The handler embeds, after the external vector retrieval
(`retriever.getRelevantDocuments`), a pure pipeline over the returned
candidate documents: metadata parsing, keyword scoring, filtering, stable
sorting, URL deduplication and pagination.  The candidate list is the
argument. -/

/-- The metadata blob attached to a vector record, as read by the handler:
every field is optional because `JSON.parse` of the stored string may lack
any of them. -/
structure DocMeta where
  title : Option String := none
  description : Option String := none
  imageUrl : Option String := none
  tags : Option (List String) := none
  categories : Option (List String) := none
  url : Option String := none
  isFavorite : Option Bool := none
  dateAdded : Option String := none
deriving DecidableEq, Repr

/-- One candidate document from the vector store: its `pageContent`, its
vector `_distance`, and its metadata blob — `none` models a missing or
unparseable blob, which `parseMetadata` (lines 130–140) turns into `{}`. -/
structure Doc where
  pageContent : String
  distance : Int
  blob : Option DocMeta
deriving DecidableEq, Repr

/-- `parseMetadata` (lines 130–140): the parsed blob, or the empty object
when the blob is absent, not a string, or fails to parse. -/
def parseMetadata (d : Doc) : DocMeta :=
  d.blob.getD {}

/-- `qs` parsing of one whitespace-delimited token: the part before the
first `=` is the key, the rest the value; a token without `=` becomes a key
with empty value.  (Bracket syntax and percent-decoding of `qs` are not
exercised by any input considered here.) -/
def qsToken (tok : String) : String × String :=
  match strSplitChar '=' tok with
  | [] => (tok, "")
  | k :: rest => (k, joinWithChar '=' rest)

/-- `qs.parse(message, { delimiter: /\s+/ })` (line 47) as an association
list in token order.  Inputs considered carry no duplicate keys, so the
first binding for a key is its value. -/
def qsParse (message : String) : List (String × String) :=
  (splitWs message).map qsToken

/-- Property read `queryParams.key` on the `qs` result. -/
def lookupParam (ps : List (String × String)) (k : String) : Option String :=
  (ps.find? (fun p => p.1 == k)).map (fun p => p.2)

/-- The `filters` object built on lines 49–55. -/
structure ChatFilters where
  category : Option String
  tag : Option String
  title : Option String
  description : Option String
  date : Option String
deriving DecidableEq, Repr

/-- Lines 47–55: lowercase the message, `qs`-parse it, and read the five
filter fields (`tag` falls back to `tags`, `date` to `month`, through
JavaScript `||` which also skips empty strings). -/
def chatFilters (message : String) : ChatFilters :=
  let ps := qsParse (strToLower message)
  { category := lookupParam ps "category"
    tag := jsOrOpt (lookupParam ps "tag") (lookupParam ps "tags")
    title := lookupParam ps "title"
    description := lookupParam ps "description"
    date := jsOrOpt (lookupParam ps "date") (lookupParam ps "month") }

/-- `Object.keys(filters)` (line 60): the five property names, present
whether or not their values are `undefined`. -/
def filterKeyNames : List String := ["category", "tag", "title", "description", "date"]

/-- Lines 57–60: the residual keyword list — the lowercased
whitespace-split tokens, minus any token equal to one of the five filter
PROPERTY NAMES (not minus the consumed `key=value` tokens). -/
def chatKeywords (message : String) : List String :=
  (splitWs (strToLower message)).filter (fun w => !(filterKeyNames.contains w))

/-- `Object.values(filters).some(v => v !== undefined)` (line 62): a filter
is "present" exactly when its value is not `undefined` (an empty-string
value counts as present). -/
def hasFilters (f : ChatFilters) : Bool :=
  f.category.isSome || f.tag.isSome || f.title.isSome || f.description.isSome || f.date.isSome

/-- `metadata.tags?.join(" ") || ""` of line 70. -/
def tagsJoined (m : DocMeta) : String :=
  match m.tags with
  | none => ""
  | some l => joinWithChar ' ' l

/-- The searchable text of line 70: title, description, joined tags and URL
joined with single spaces, lowercased. -/
def docText (m : DocMeta) : String :=
  strToLower
    ⟨(jsOrStr m.title "").data ++ ' ' ::
      ((jsOrStr m.description "").data ++ ' ' ::
        ((tagsJoined m).data ++ ' ' :: (jsOrStr m.url "").data))⟩

/-- The keyword-overlap score of line 72: +1 per residual keyword occurring
as a substring of the searchable text. -/
def kwScore (keywords : List String) (m : DocMeta) : Nat :=
  keywords.foldl (fun s kw => s + if strContains (docText m) kw then 1 else 0) 0

/-- One `!filter || test(filter)` conjunct of `applyExactFilters`: an absent
or empty-string filter passes, otherwise the test decides. -/
def jsFilterPass (f : Option String) (test : String → Bool) : Bool :=
  match f with
  | none => true
  | some s => if s = "" then true else test s

/-- `applyExactFilters` (lines 143–155): category/tag by lowercased
membership, title/description by lowercased substring (failing when the
field is absent), date by raw substring on `dateAdded`. -/
def applyExactFilters (m : DocMeta) (f : ChatFilters) : Bool :=
  let tags := (m.tags.getD []).map strToLower
  let categories := (m.categories.getD []).map strToLower
  jsFilterPass f.category (fun c => categories.contains (strToLower c)) &&
  jsFilterPass f.tag (fun t => tags.contains t) &&
  jsFilterPass f.title (fun t =>
    match m.title with
    | none => false
    | some ti => strContains (strToLower ti) t) &&
  jsFilterPass f.description (fun dsc =>
    match m.description with
    | none => false
    | some de => strContains (strToLower de) dsc) &&
  jsFilterPass f.date (fun dt =>
    match m.dateAdded with
    | none => false
    | some da => strContains da dt)

/-- A document with its parsed metadata and keyword score — the
`FilteredDoc` shape of `chat.ts`. -/
structure ScoredDoc where
  doc : Doc
  meta : DocMeta
  score : Nat
deriving DecidableEq, Repr

/-- The "a sorts strictly before b" relation of the comparator on line 89:
`b.score - a.score || a.doc.metadata._distance - b.doc.metadata._distance`
is negative iff `a` has the larger score, or equal scores and the smaller
distance. -/
def chatBefore (a b : ScoredDoc) : Bool :=
  decide (b.score < a.score) ||
    (a.score == b.score && decide (a.doc.distance < b.doc.distance))

/-- Lines 65–89: map each candidate to its parsed metadata and score,
filter (exact filters when any filter is present, otherwise positive
keyword score unless the keyword list is empty), and stable-sort by score
descending with ascending distance as tiebreaker. -/
def chatCandidates (message : String) (docs : List Doc) : List ScoredDoc :=
  let filters := chatFilters message
  let keywords := chatKeywords message
  let hasF := hasFilters filters
  let items := docs.map (fun d =>
    let m := parseMetadata d
    { doc := d, meta := m, score := kwScore keywords m : ScoredDoc })
  let kept := items.filter (fun it =>
    if hasF then applyExactFilters it.meta filters
    else (keywords.isEmpty || decide (0 < it.score)))
  jsStableSort chatBefore kept

/-- The link record built on lines 92–101. -/
structure ChatLink where
  title : String
  url : String
  description : String
  image : String
  tags : List String
  category : String
  isFavorite : Bool
  dateAdded : String
deriving DecidableEq, Repr

/-- Lines 92–101: one candidate mapped to its standardized link, every
field defaulted through JavaScript `||`. -/
def linkOfDoc (d : Doc) : ChatLink :=
  let m := parseMetadata d
  { title := jsOrStr m.title (if d.pageContent = "" then "Untitled" else d.pageContent)
    url := jsOrStr m.url "No URL provided"
    description := jsOrStr m.description "No description available"
    image := jsOrStr m.imageUrl ""
    tags := m.tags.getD []
    category :=
      match m.categories with
      | some (c :: _) => if c = "" then "" else c
      | _ => ""
    isFavorite := m.isFavorite.getD false
    dateAdded := jsOrStr m.dateAdded "Unknown date" }

/-- Lines 92–104: the deduplicated link list
`Array.from(new Map(links.map(link => [link.url, link])).values())`. -/
def chatUniqueLinks (message : String) (docs : List Doc) : List ChatLink :=
  let links := (chatCandidates message docs).map (fun it => linkOfDoc it.doc)
  jsMapValuesOfList (links.map (fun l => (l.url, l)))

/-- Line 106: `uniqueLinks.slice(offset, offset + limit)` — the `links`
field of the response for nonnegative integer `offset` and `limit`. -/
def searchLinks (message : String) (docs : List Doc) (offset limit : Nat) : List ChatLink :=
  ((chatUniqueLinks message docs).drop offset).take limit

/-- Line 115: the `total` field of the response, `uniqueLinks.length`. -/
def searchTotal (message : String) (docs : List Doc) : Nat :=
  (chatUniqueLinks message docs).length

/-- A candidate document for the query "alpha beta": both keywords occur in
its title, score 2.  Shares its URL with `dupDocLow`. -/
def dupDocHigh : Doc :=
  ⟨"", 0, some { title := some "alpha beta", url := some "https://x.example" }⟩

/-- A candidate document for the query "alpha beta": only "alpha" occurs in
its title, score 1.  Shares its URL with `dupDocHigh`. -/
def dupDocLow : Doc :=
  ⟨"", 1, some { title := some "alpha", url := some "https://x.example" }⟩

/-! ## Helper lemmas on the JavaScript-semantics combinators -/

theorem jsInsertBy_perm (lt : α → α → Bool) (x : α) (l : List α) :
    (jsInsertBy lt x l).Perm (x :: l) := by
  induction l with
  | nil => simp [jsInsertBy]
  | cons y ys ih =>
    simp only [jsInsertBy]
    split
    · exact (ih.cons y).trans (List.Perm.swap x y ys)
    · exact List.Perm.refl _

theorem jsStableSort_perm (lt : α → α → Bool) (l : List α) :
    (jsStableSort lt l).Perm l := by
  induction l with
  | nil => simp [jsStableSort]
  | cons x xs ih =>
    simp only [jsStableSort, List.foldr_cons]
    exact (jsInsertBy_perm lt x _).trans (ih.cons x)

theorem jsSetDedupAux_nodup_disjoint (l : List String) :
    ∀ seen : List String,
      (jsSetDedupAux seen l).Nodup ∧ ∀ x ∈ jsSetDedupAux seen l, x ∉ seen := by
  induction l with
  | nil => intro seen; simp [jsSetDedupAux]
  | cons x xs ih =>
    intro seen
    simp only [jsSetDedupAux]
    split
    · exact ih seen
    · rename_i hx
      obtain ⟨hnd, hdisj⟩ := ih (x :: seen)
      refine ⟨List.nodup_cons.mpr ⟨fun hmem => (hdisj x hmem) (List.mem_cons_self x seen), hnd⟩, ?_⟩
      intro y hy hyseen
      rcases List.mem_cons.mp hy with rfl | hy2
      · exact hx hyseen
      · exact hdisj y hy2 (List.mem_cons_of_mem _ hyseen)

theorem jsSetDedup_nodup (l : List String) : (jsSetDedup l).Nodup :=
  (jsSetDedupAux_nodup_disjoint l []).1

theorem jsMapInsert_length_le (m : List (String × α)) (k : String) (v : α) :
    (jsMapInsert m k v).length ≤ m.length + 1 := by
  unfold jsMapInsert
  split
  · simp
  · simp

theorem jsMapOfList_length_le_gen (ps : List (String × α)) :
    ∀ m : List (String × α),
      (ps.foldl (fun m p => jsMapInsert m p.1 p.2) m).length ≤ m.length + ps.length := by
  induction ps with
  | nil => intro m; simp
  | cons p ps ih =>
    intro m
    simp only [List.foldl_cons, List.length_cons]
    have h1 := ih (jsMapInsert m p.1 p.2)
    have h2 := jsMapInsert_length_le m p.1 p.2
    omega

theorem jsMapOfList_length_le (ps : List (String × α)) :
    (jsMapOfList ps).length ≤ ps.length := by
  have h := jsMapOfList_length_le_gen ps []
  simpa [jsMapOfList] using h

/-! ## Claim theorems -/

/-- C1: the rendered extractor is claimed to close the launched browser on
both the success path and every failure path.  The code has no
`try`/`finally`: evaluating `fetchMetadataWithPuppeteer` at a failing
navigation (and at a failing evaluation) shows the call propagates the error
with the browser still open; only the success path closes it. -/
theorem fetchMetadataWithPuppeteer_leaks_browser_on_failure :
    fetchMetadataWithPuppeteer true false ⟨"", "", "", [], []⟩ =
      { result := none, browserClosed := false } ∧
    fetchMetadataWithPuppeteer false true ⟨"", "", "", [], []⟩ =
      { result := none, browserClosed := false } ∧
    fetchMetadataWithPuppeteer false false ⟨"t", "d", "i", [], []⟩ =
      { result := some ⟨"t", "d", "i", [], []⟩, browserClosed := true } := by
  refine ⟨rfl, rfl, rfl⟩

/-- C4: `determineFetchMethod` is total over the two strategy values and
returns `"puppeteer"` when the probe fails, `"puppeteer"` when the probe
succeeds with an empty title or one matching the dynamic-site pattern, and
`"axios"` otherwise. -/
theorem determineFetchMethod_spec (probe : Option String) :
    (probe = none → determineFetchMethod probe = .puppeteer) ∧
    (∀ t, probe = some t →
      ((t = "" ∨ dynamicSiteTitle t = true) → determineFetchMethod probe = .puppeteer) ∧
      (t ≠ "" → dynamicSiteTitle t = false → determineFetchMethod probe = .axios)) := by
  refine ⟨?_, ?_⟩
  · rintro rfl
    rfl
  · rintro t rfl
    refine ⟨?_, ?_⟩
    · rintro (rfl | h)
      · rfl
      · simp [determineFetchMethod, h]
    · intro h1 h2
      simp [determineFetchMethod, h1, h2]

/-- C4 witness: the four concrete strategy decisions, via
`determineFetchMethod_spec`. -/
theorem determineFetchMethod_spec_witness :
    determineFetchMethod none = .puppeteer ∧
    determineFetchMethod (some "") = .puppeteer ∧
    determineFetchMethod (some "My Behance Portfolio") = .puppeteer ∧
    determineFetchMethod (some "A plain blog") = .axios := by
  refine ⟨(determineFetchMethod_spec none).1 rfl,
    ((determineFetchMethod_spec (some "")).2 "" rfl).1 (Or.inl rfl),
    ((determineFetchMethod_spec (some "My Behance Portfolio")).2 _ rfl).1 (Or.inr (by decide)),
    ((determineFetchMethod_spec (some "A plain blog")).2 _ rfl).2 (by decide) (by decide)⟩

/-- C5 counterexample: the claim states the spec's score breakdown, under
which "logo" receives a title-match bonus (+3, total 3).  But "logo" does
not occur in "minimalist packaging design": the code's score for "logo" is
0 (word count +1, generic penalty −1, no title or description match). -/
theorem tagRanking_logo_score_counterexample :
    tagScore (strToLower "Minimalist Packaging Design") (strToLower "") "logo" = 0 ∧
    ¬ tagScore (strToLower "Minimalist Packaging Design") (strToLower "") "logo" = 3 := by
  refine ⟨by decide, by decide⟩

/-- C5 amended: on tags ["logo", "minimalist packaging design"] with title
"Minimalist Packaging Design" and a description containing neither tag, the
ranking is deterministic and ranks the multi-word tag (score 6 = title +3,
word count +3) above "logo" (score 0 = word count +1, generic −1, no
title match because "logo" is not a substring of the title). -/
theorem tagRanking_example_deterministic :
    rankTags ⟨"Minimalist Packaging Design", "", ["logo", "minimalist packaging design"]⟩ =
      ["minimalist packaging design", "logo"] ∧
    tagScore (strToLower "Minimalist Packaging Design") (strToLower "")
      "minimalist packaging design" = 6 ∧
    tagScore (strToLower "Minimalist Packaging Design") (strToLower "") "logo" = 0 := by
  refine ⟨by decide, by decide, by decide⟩

/-- C3 counterexample: the enrichment output is claimed to never exceed 5
entries and never contain a case-sensitive duplicate, for every input.  The
ranking branch performs no deduplication — a duplicated input tag survives —
and the generation branch applies no cap — a 7-item service response yields
7 tags. -/
theorem processTagsWithAI_dup_and_cap_counterexample :
    processTagsWithAI ⟨"x", "y", ["logo", "logo"]⟩ none = ["logo", "logo"] ∧
    ¬ (processTagsWithAI ⟨"x", "y", ["logo", "logo"]⟩ none).Nodup ∧
    (processTagsWithAI ⟨"x", "y", []⟩ (some "a, b, c, d, e, f, g")).length = 7 := by
  refine ⟨by decide, by decide, by decide⟩

/-- C3 amended: when the input tag list is nonempty and itself duplicate-free,
the ranked output has at most 5 entries and no case-sensitive duplicate.
(The ranking branch never deduplicates, so a duplicated input propagates;
the generation branch neither caps at 5 nor deduplicates.) -/
theorem processTagsWithAI_ranked_bounded_nodup (meta : TagMeta) (response : Option String)
    (hne : meta.tags ≠ []) (hnd : meta.tags.Nodup) :
    (processTagsWithAI meta response).length ≤ 5 ∧
    (processTagsWithAI meta response).Nodup := by
  have hlen : meta.tags.length > 0 := List.length_pos.mpr hne
  have hbranch : processTagsWithAI meta response = rankTags meta := by
    unfold processTagsWithAI
    exact if_pos hlen
  rw [hbranch]
  unfold rankTags
  set lt := scoreBefore with hlt
  set scored := meta.tags.map (fun tag =>
    (tag, tagScore (strToLower meta.title) (strToLower meta.description) tag)) with hscored
  have hperm : ((jsStableSort lt scored).map (fun p => p.1)).Perm meta.tags := by
    have h1 : (jsStableSort lt scored).Perm scored := jsStableSort_perm lt scored
    have h2 := h1.map (fun p : String × Int => p.1)
    have h3 : scored.map (fun p : String × Int => p.1) = meta.tags := by
      rw [hscored]
      simp [Function.comp_def]
    rw [h3] at h2
    exact h2
  have hmapnodup : ((jsStableSort lt scored).map (fun p => p.1)).Nodup :=
    hperm.symm.nodup hnd
  refine ⟨?_, ?_⟩
  · simp only [List.length_map, List.length_take]
    omega
  · have hsub : (((jsStableSort lt scored).take 5).map (fun p => p.1)).Sublist
        ((jsStableSort lt scored).map (fun p => p.1)) :=
      (List.take_sublist 5 _).map _
    exact hmapnodup.sublist hsub

/-- C3 witness: the amended bound at a concrete duplicate-free tag list. -/
theorem processTagsWithAI_ranked_bounded_nodup_witness :
    (processTagsWithAI ⟨"t", "d", ["a", "b"]⟩ none).length ≤ 5 ∧
    (processTagsWithAI ⟨"t", "d", ["a", "b"]⟩ none).Nodup :=
  processTagsWithAI_ranked_bounded_nodup ⟨"t", "d", ["a", "b"]⟩ none (by decide) (by decide)

theorem releaseUrl_not_mem (l : List String) (url : String) : url ∉ releaseUrl l url := by
  simp [releaseUrl]

/-- C6: the concurrency guard: acquiring the same URL twice without an
intervening release yields `true` then `false`; after a release a fresh
acquire succeeds again; a duplicate in-flight URL makes the handler answer
429 with the set unchanged; and on both pipeline outcomes the handler
removes the URL from the set before finishing, answering 200 or 500. -/
theorem concurrencyGuard_spec (s s2 : List String) (url : String)
    (outcome : PipelineOutcome) (h : url ∉ s) (h2 : url ∈ s2) :
    (tryAcquire s url).1 = true ∧
    (tryAcquire (tryAcquire s url).2 url).1 = false ∧
    (tryAcquire (releaseUrl (tryAcquire s url).2 url) url).1 = true ∧
    getMetadataHandler s2 (some url) outcome = (429, s2) ∧
    url ∉ (getMetadataHandler s (some url) outcome).2 ∧
    (getMetadataHandler s (some url) outcome).1 =
      (match outcome with | .success _ => 200 | .failure => 500) := by
  have hfirst : tryAcquire s url = (true, url :: s) := by
    simp [tryAcquire, h]
  have hrel : url ∉ releaseUrl (url :: s) url := releaseUrl_not_mem _ _
  refine ⟨by rw [hfirst], ?_, ?_, ?_, ?_, ?_⟩
  · rw [hfirst]
    simp [tryAcquire]
  · rw [hfirst]
    simp [tryAcquire, hrel]
  · simp [getMetadataHandler, h2]
  · cases outcome <;> simp [getMetadataHandler, h, releaseUrl]
  · cases outcome <;> simp [getMetadataHandler, h]

/-- C6 witness: the guard transitions at a concrete URL and set states. -/
theorem concurrencyGuard_spec_witness :
    (tryAcquire [] "https://a.example").1 = true ∧
    (tryAcquire (tryAcquire [] "https://a.example").2 "https://a.example").1 = false ∧
    (tryAcquire (releaseUrl (tryAcquire [] "https://a.example").2 "https://a.example")
      "https://a.example").1 = true ∧
    getMetadataHandler ["https://a.example"] (some "https://a.example") .failure =
      (429, ["https://a.example"]) ∧
    "https://a.example" ∉ (getMetadataHandler [] (some "https://a.example") .failure).2 ∧
    (getMetadataHandler [] (some "https://a.example") .failure).1 = 500 :=
  concurrencyGuard_spec [] ["https://a.example"] "https://a.example" .failure
    (by decide) (by decide)

/-- C7: pagination is a consistent slice of one deduplicated sorted list:
for the same message and the same stable candidate set, page (0,10) followed
by page (10,10) equals page (0,20). -/
theorem searchLinks_pagination_consistent (message : String) (docs : List Doc) :
    searchLinks message docs 0 10 ++ searchLinks message docs 10 10 =
      searchLinks message docs 0 20 := by
  unfold searchLinks
  rw [List.drop_zero, show (20 : Nat) = 10 + 10 from rfl, List.take_add]

/-- C10: in every successful response, `total` is the length of the
deduplicated list (before pagination), the returned links are exactly the
contiguous slice `[offset, offset+limit)` of that list, the page length is
at most `min limit total`, and `total` never exceeds the raw candidate
count. -/
theorem searchResponse_total_dedup_slice (message : String) (docs : List Doc)
    (offset limit : Nat) :
    searchTotal message docs = (chatUniqueLinks message docs).length ∧
    searchLinks message docs offset limit =
      ((chatUniqueLinks message docs).drop offset).take limit ∧
    (searchLinks message docs offset limit).length ≤
      min limit (searchTotal message docs) ∧
    searchTotal message docs ≤ docs.length := by
  refine ⟨rfl, rfl, ?_, ?_⟩
  · simp only [searchLinks, searchTotal, List.length_take, List.length_drop]
    omega
  · have hcand : (chatCandidates message docs).length ≤ docs.length := by
      unfold chatCandidates
      simp only
      rw [(jsStableSort_perm chatBefore _).length_eq]
      calc (List.filter _ (List.map _ docs)).length
          ≤ (List.map _ docs).length := List.length_filter_le _ _
        _ = docs.length := List.length_map _ _
    unfold searchTotal chatUniqueLinks
    simp only [jsMapValuesOfList, List.length_map]
    calc (jsMapOfList ((List.map _ (chatCandidates message docs)).map _)).length
        ≤ ((List.map _ (chatCandidates message docs)).map _).length :=
          jsMapOfList_length_le _
      _ = (chatCandidates message docs).length := by simp
      _ ≤ docs.length := hcand

/-- C8: the claim says `key:value` tokens such as `category:design` are
consumed into the filter map and excluded from the residual keywords.  The
code parses tokens with `qs`, which splits on `=`, never on `:`; and the
keyword list only removes tokens equal to a bare filter PROPERTY NAME.  So
`category:design` sets no filter (all five stay `undefined`,
`hasFilters = false`) and survives as a keyword — while the handler's own
no-result message advertises exactly this `category:design` syntax.  Even
the `=` form that does set the filter is not removed from the keywords. -/
theorem chatTokenization_colon_filter_bug :
    chatFilters "category:design" =
      { category := none, tag := none, title := none, description := none, date := none } ∧
    hasFilters (chatFilters "category:design") = false ∧
    chatKeywords "category:design" = ["category:design"] ∧
    chatFilters "category=design foo" =
      { category := some "design", tag := none, title := none, description := none,
        date := none } ∧
    chatKeywords "category=design foo" = ["category=design", "foo"] := by
  refine ⟨by decide, by decide, by decide, by decide, by decide⟩

/-- C9 counterexample: the claim says both signals of a JSON-LD block are
used when present.  On a block carrying both `keywords: "a,b"` and
`about: "c"`, the `else if` skips the `about` branch: `"c"` is dropped. -/
theorem extractTagsAxios_about_skipped_counterexample :
    extractTagsAxios [some { keywords := some "a,b", about := some (.strVal "c") }] none =
      ["a", "b"] ∧
    "c" ∉ extractTagsAxios [some { keywords := some "a,b", about := some (.strVal "c") }]
      none := by
  refine ⟨by decide, by decide⟩

/-- C9 amended: per JSON-LD block, `keywords` takes precedence: a truthy
`keywords` field is comma-split, trimmed and merged with set semantics, and
only when `keywords` is absent or falsy is the `about` field consulted — a
truthy string `about` is appended as one tag, and an entity-list `about`
contributes each entity's truthy `name`; a malformed block is skipped
without aborting; and the final tag list is deduplicated (no duplicates
under case-sensitive comparison). -/
theorem extractTagsAxios_amended_spec (blocks : List (Option LdBlock))
    (metaKeywords : Option String) (tags : List String) (b : LdBlock) (s : String)
    (items : List (Option String)) :
    (extractTagsAxios blocks metaKeywords).Nodup ∧
    processLdBlock tags none = tags ∧
    (jsTruthy b.keywords = true →
      processLdBlock tags (some b) =
        jsSetDedup (tags ++ (strSplitChar ',' (b.keywords.getD "")).map strTrim)) ∧
    (jsTruthy b.keywords = false → b.about = some (.strVal s) → s ≠ "" →
      processLdBlock tags (some b) = tags ++ [s]) ∧
    (jsTruthy b.keywords = false → b.about = some (.arrVal items) →
      processLdBlock tags (some b) =
        tags ++ items.filterMap (fun n =>
          match n with
          | some nm => if nm = "" then none else some nm
          | none => none)) := by
  refine ⟨?_, rfl, ?_, ?_, ?_⟩
  · exact jsSetDedup_nodup _
  · intro hk
    simp [processLdBlock, hk]
  · intro hk ha hs
    simp [processLdBlock, hk, ha, aboutTruthy, hs]
  · intro hk ha
    simp [processLdBlock, hk, ha, aboutTruthy]

/-- C9 witness: a keywords-free block contributes its string `about` as one
tag, and a keywords-free block with an entity-list `about` contributes
exactly the truthy entity names, both via `extractTagsAxios_amended_spec`. -/
theorem extractTagsAxios_amended_spec_witness :
    processLdBlock ["x"] (some { keywords := none, about := some (.strVal "c") }) =
      ["x", "c"] ∧
    processLdBlock ["x"]
      (some { keywords := none,
              about := some (.arrVal [some "n1", none, some "", some "n2"]) }) =
      ["x", "n1", "n2"] := by
  refine ⟨?_, ?_⟩
  · have h := (extractTagsAxios_amended_spec [] none ["x"]
      { keywords := none, about := some (.strVal "c") } "c" []).2.2.2.1 rfl rfl (by decide)
    rw [h]
    decide
  · have h := (extractTagsAxios_amended_spec [] none ["x"]
      { keywords := none, about := some (.arrVal [some "n1", none, some "", some "n2"]) }
      "" [some "n1", none, some "", some "n2"]).2.2.2.2 rfl rfl
    rw [h]
    decide

theorem jsStableSort_pair_sorted (lt : α → α → Bool) (a b : α) (h : lt b a = false) :
    jsStableSort lt [a, b] = [a, b] := by
  show jsInsertBy lt a (jsInsertBy lt b []) = [a, b]
  show (if lt b a then b :: jsInsertBy lt a [] else a :: b :: []) = [a, b]
  rw [h]
  simp

theorem jsMapValues_pair_same_key (k : String) (v1 v2 : α) :
    jsMapValuesOfList [(k, v1), (k, v2)] = [v2] := by
  simp [jsMapValuesOfList, jsMapOfList, jsMapInsert]

theorem chatBefore_eq_false_of_lt (a b : ScoredDoc) (h : a.score < b.score) :
    chatBefore a b = false := by
  unfold chatBefore
  have h1 : decide (b.score < a.score) = false :=
    decide_eq_false (Nat.not_lt.mpr (Nat.le_of_lt h))
  have h2 : (a.score == b.score) = false := by
    simp only [beq_eq_false_iff_ne, ne_eq]
    exact Nat.ne_of_lt h
  rw [h1, h2]
  simp

/-- C2 amended: deduplication keeps exactly one entry per URL, positioned at
the first (highest-ranked) occurrence but carrying the value of the LAST
(lowest-ranked) occurrence: for two candidates sharing a URL with distinct
positive keyword scores and no structured filters, the returned page is
exactly the lower-scored candidate's entry. -/
theorem chatDedup_keeps_last_value (message : String) (dHigh dLow : Doc)
    (hf : hasFilters (chatFilters message) = false)
    (hu : (linkOfDoc dHigh).url = (linkOfDoc dLow).url)
    (hpos : 0 < kwScore (chatKeywords message) (parseMetadata dLow))
    (hlt : kwScore (chatKeywords message) (parseMetadata dLow) <
      kwScore (chatKeywords message) (parseMetadata dHigh)) :
    searchLinks message [dHigh, dLow] 0 10 = [linkOfDoc dLow] := by
  have hdH : decide (0 < kwScore (chatKeywords message) (parseMetadata dHigh)) = true :=
    decide_eq_true (Nat.lt_trans hpos hlt)
  have hdL : decide (0 < kwScore (chatKeywords message) (parseMetadata dLow)) = true :=
    decide_eq_true hpos
  have hcand : chatCandidates message [dHigh, dLow] =
      [{ doc := dHigh, meta := parseMetadata dHigh,
         score := kwScore (chatKeywords message) (parseMetadata dHigh) },
       { doc := dLow, meta := parseMetadata dLow,
         score := kwScore (chatKeywords message) (parseMetadata dLow) }] := by
    unfold chatCandidates
    simp only [hf, List.map_cons, List.map_nil, List.filter_cons, List.filter_nil,
      Bool.false_eq_true, if_false, hdH, hdL, Bool.or_true]
    exact jsStableSort_pair_sorted _ _ _ (chatBefore_eq_false_of_lt _ _ hlt)
  unfold searchLinks chatUniqueLinks
  rw [hcand]
  simp only [List.map_cons, List.map_nil]
  rw [hu]
  rw [jsMapValues_pair_same_key]
  rfl

/-- C2 witness: the amended statement at the two concrete documents sharing
one URL, via `chatDedup_keeps_last_value`. -/
theorem chatDedup_keeps_last_value_witness :
    searchLinks "alpha beta" [dupDocHigh, dupDocLow] 0 10 = [linkOfDoc dupDocLow] :=
  chatDedup_keeps_last_value "alpha beta" dupDocHigh dupDocLow
    (by decide) (by decide) (by decide) (by decide)

/-- C2 counterexample: on the query "alpha beta", `dupDocHigh` scores 2 and
`dupDocLow` scores 1, they share a URL, and the returned entry is the
lower-ranked document's link — not the higher-scored one the claim
promises. -/
theorem chatDedup_counterexample :
    0 < kwScore (chatKeywords "alpha beta") (parseMetadata dupDocLow) ∧
    kwScore (chatKeywords "alpha beta") (parseMetadata dupDocLow) <
      kwScore (chatKeywords "alpha beta") (parseMetadata dupDocHigh) ∧
    (linkOfDoc dupDocHigh).url = (linkOfDoc dupDocLow).url ∧
    searchLinks "alpha beta" [dupDocHigh, dupDocLow] 0 10 = [linkOfDoc dupDocLow] ∧
    linkOfDoc dupDocLow ≠ linkOfDoc dupDocHigh := by
  refine ⟨by decide, by decide, by decide, by decide, by decide⟩

end Bridgea
